import Mathlib

/-!
Verification of the runtime-selection and execution-protocol layer of a
Python library that evaluates JavaScript source by delegating to external
engine binaries.  The embedded source files are `execjs/__init__.py` and
`execjs/runtimes_config.py`.

Modelling conventions:
* Python strings are Lean `String`s / `List Char` (sequences of Unicode
  scalar values), matching CPython's code-point view of `str`.
* Collaborators the code consumes as black boxes (`json.loads`, the
  filesystem `os.stat`, the environment, the per-binary availability
  probe) are passed to the embedded functions as explicit oracle
  parameters, so every embedded function stays executable.
* Python exceptions are modelled with `Except`: the library's typed
  exception classes (`RuntimeError`, `ProgramError`, `RuntimeUnavailable`)
  and the untyped interpreter exceptions the code can raise
  (`AttributeError`, `ValueError`, `IndexError`, an I/O failure) each get
  a constructor.
-/

namespace ExecJS

/-- JSON values as produced by `json.loads` on an envelope line.  Python
`None` (the padding value for one-element envelopes, and the decoding of
JSON `null`) is `JVal.null`.  The decoded envelope itself is a
`List JVal`.  Numbers are modelled as integers (every envelope the claims
mention carries an integer); nested arrays and objects never occur in the
claims' envelopes and are omitted from the value type. -/
inductive JVal where
  | null
  | bool (b : Bool)
  | num (n : Int)
  | str (s : String)
  deriving DecidableEq

/-- Python-level failure outcomes of the embedded functions.
`runtimeError` and `programError` are the library's own exception classes
(`execjs.RuntimeError`, `execjs.ProgramError`); the remaining
constructors model untyped Python exceptions. -/
inductive PyExc where
  | runtimeError (v : JVal)
  | programError (v : JVal)
  | attributeError
  | valueError
  | indexError
  | ioError
  deriving DecidableEq

deriving instance DecidableEq for Except

/-- Embeds Python's `str.startswith` on whole strings: code-point-wise
prefix test. -/
def startswith (s pre : String) : Bool := pre.data.isPrefixOf s.data

/-- Embeds `ret = [ret[0], None] if len(ret) == 1 else ret` from
`_extract_result` (`execjs/__init__.py` line 315-316): a one-element
envelope is padded with an implicit `None` value. -/
def pad1 (ret : List JVal) : List JVal :=
  if ret.length = 1 then [ret.headD JVal.null, JVal.null] else ret

/-- Embeds the tuple unpacking `status, value = ret` (`__init__.py` line
317): a list of any length other than two raises `ValueError`. -/
def unpack2 : List JVal → Except PyExc (JVal × JVal)
  | [status, value] => Except.ok (status, value)
  | _ => Except.error PyExc.valueError

/-- Embeds the dispatch on `status` (`__init__.py` lines 319-324).  On a
non-`"ok"` status the source calls `value.startswith("SyntaxError:")`;
when `value` is not a string (in particular when it is the implicit
`None` of a padded one-element envelope, or the `None` installed for an
empty line) that attribute access raises an untyped `AttributeError`. -/
def status_dispatch (status value : JVal) : Except PyExc JVal :=
  if status = JVal.str ("ok") then Except.ok value
  else
    match value with
    | JVal.str s =>
        if startswith s ("SyntaxError:") then Except.error (PyExc.runtimeError (JVal.str s))
        else Except.error (PyExc.programError (JVal.str s))
    | _ => Except.error PyExc.attributeError

/-- Embeds `ExternalRuntime.Context._extract_result` (`__init__.py` lines
309-324).  `json.loads` is a black-box collaborator (spec section 1) and
is passed as the oracle `jparse`, returning either the decoded array or
the exception a failed decode would raise.  An empty `output_last_line`
is falsy, so the source skips the decode and sets
`status = value = None`. -/
def _extract_result (jparse : String → Except PyExc (List JVal))
    (output_last_line : String) : Except PyExc JVal :=
  if output_last_line = "" then status_dispatch JVal.null JVal.null
  else
    match jparse output_last_line with
    | Except.error e => Except.error e
    | Except.ok ret =>
        match unpack2 (pad1 ret) with
        | Except.error e => Except.error e
        | Except.ok (status, value) => status_dispatch status value

/-- Concrete stand-in for `json.loads`, used to close statements about an
empty envelope line (there the decoder is never consulted). -/
def jparseUnused : String → Except PyExc (List JVal) := fun _ =>
  Except.error PyExc.valueError

/-- Concrete `json.loads` table for the serialization-fallback envelope
`["err"]` that every runner template prints when the result value cannot
be serialized. -/
def jparseErrOnly : String → Except PyExc (List JVal) := fun line =>
  if line = "[\"err\"]" then Except.ok [JVal.str ("err")]
  else Except.error PyExc.valueError

/-- C1, counterexample.  The claim states that an empty envelope line
returns the undefined-equivalent value `None`.  It does not: with
`status = value = None` the `status == "ok"` test fails, and the error
branch calls `None.startswith`, raising an untyped `AttributeError`
instead of returning. -/
theorem C1_empty_line_counterexample :
    _extract_result jparseUnused ("") ≠ Except.ok JVal.null ∧
    _extract_result jparseUnused ("") = Except.error PyExc.attributeError := by
  constructor
  · decide
  · decide

/-- C1 (amended): for the envelope lines fed to `_extract_result`, the
line `["ok", 3]` returns the value `3`; the line `["ok"]` returns the
undefined-equivalent value `None`; an empty line takes the error branch
(`status = None` is not `"ok"`) and raises an untyped `AttributeError`
because the implicit `None` value has no `startswith`; the line
`["err","SyntaxError: x"]` raises `RuntimeError`; the line
`["err","ReferenceError: x"]` raises `ProgramError`.  The `json.loads`
oracle is constrained exactly on the four decoded lines. -/
theorem C1_extract_result_amended (jp : String → Except PyExc (List JVal))
    (h1 : jp ("[\"ok\", 3]") = Except.ok [JVal.str ("ok"), JVal.num 3])
    (h2 : jp ("[\"ok\"]") = Except.ok [JVal.str ("ok")])
    (h3 : jp ("[\"err\", \"SyntaxError: x\"]")
      = Except.ok [JVal.str ("err"), JVal.str ("SyntaxError: x")])
    (h4 : jp ("[\"err\", \"ReferenceError: x\"]")
      = Except.ok [JVal.str ("err"), JVal.str ("ReferenceError: x")]) :
    _extract_result jp ("[\"ok\", 3]") = Except.ok (JVal.num 3) ∧
    _extract_result jp ("[\"ok\"]") = Except.ok JVal.null ∧
    _extract_result jp ("") = Except.error PyExc.attributeError ∧
    _extract_result jp ("[\"err\", \"SyntaxError: x\"]")
      = Except.error (PyExc.runtimeError (JVal.str ("SyntaxError: x"))) ∧
    _extract_result jp ("[\"err\", \"ReferenceError: x\"]")
      = Except.error (PyExc.programError (JVal.str ("ReferenceError: x"))) := by
  refine ⟨?_, ?_, ?_, ?_, ?_⟩ <;>
    simp [_extract_result, h1, h2, h3, h4, pad1, unpack2, status_dispatch, startswith]

/-- Concrete `json.loads` table decoding exactly the four envelope lines
of claim C1. -/
def jparseTable : String → Except PyExc (List JVal) := fun line =>
  if line = "[\"ok\", 3]" then Except.ok [JVal.str ("ok"), JVal.num 3]
  else if line = "[\"ok\"]" then Except.ok [JVal.str ("ok")]
  else if line = "[\"err\", \"SyntaxError: x\"]" then
    Except.ok [JVal.str ("err"), JVal.str ("SyntaxError: x")]
  else if line = "[\"err\", \"ReferenceError: x\"]" then
    Except.ok [JVal.str ("err"), JVal.str ("ReferenceError: x")]
  else Except.error PyExc.valueError

/-- C1 (amended), witness: the amended theorem applied to the concrete
`json.loads` table `jparseTable`. -/
theorem C1_extract_result_amended_witness :
    _extract_result jparseTable ("[\"ok\", 3]") = Except.ok (JVal.num 3) ∧
    _extract_result jparseTable ("") = Except.error PyExc.attributeError := by
  have h := C1_extract_result_amended jparseTable
    (by decide) (by decide) (by decide) (by decide)
  exact ⟨h.1, h.2.2.1⟩

/-- C2: the serialization-fallback envelope `["err"]` — the line every
runner template prints when the success value cannot be serialized — is
padded to `["err", None]`, and the error branch then calls
`None.startswith`, raising an untyped `AttributeError` rather than the
`ProgramError` the protocol intends (and which the spec documents). -/
theorem C2_err_fallback_bug :
    _extract_result jparseErrOnly ("[\"err\"]") = Except.error PyExc.attributeError ∧
    _extract_result jparseErrOnly ("[\"err\"]")
      ≠ Except.error (PyExc.programError JVal.null) := by
  constructor
  · decide
  · decide

/-! ### Non-ASCII escaping: `encode_unicode_codepoints` (claim C3) -/

/-- Lowercase hexadecimal digit characters, as produced by Python's `x`
format code. -/
def hexDigitChar (n : Nat) : Char :=
  if n < 10 then Char.ofNat (0x30 + n)
  else if n < 16 then Char.ofNat (0x57 + n)
  else '0'

/-- Embeds Python's built-in format specification `'{0:04x}'.format(n)`
(bound as `codepoint_format` in `encode_unicode_codepoints`,
`__init__.py` line 337) for arguments below `16 ^ 6`: the lowercase
hexadecimal digits of `n` without leading zeros, left-padded with `'0'`
to a minimum width of four.  Every Unicode code point (`< 0x110000`) lies
in this domain, and `ord` only ever feeds code points to the format. -/
def format04x (n : Nat) : List Char :=
  let six := [n / 1048576 % 16, n / 65536 % 16, n / 4096 % 16,
              n / 256 % 16, n / 16 % 16, n % 16].map hexDigitChar
  let ds := six.dropWhile (fun c => c == '0')
  List.replicate (4 - ds.length) '0' ++ ds

/-- Embeds the per-match replacement `codepoint` of
`encode_unicode_codepoints` (`__init__.py` lines 339-340):
`'\\u' + '{0:04x}'.format(ord(ch))`. -/
def codepoint_escape (c : Char) : List Char := '\\' :: 'u' :: format04x c.toNat

/-- Embeds `encode_unicode_codepoints` (`__init__.py` lines 327-342):
`re.sub('[^\x00-\x7f]', codepoint, str)` replaces every character whose
code point is at least `0x80` by its escape and keeps every other
character unchanged; the regex matches single characters, so the
substitution is a character-wise map. -/
def encode_unicode_codepoints (s : String) : String :=
  String.mk ((s.data.map
    (fun c => if c.toNat ≤ 0x7f then [c] else codepoint_escape c)).flatten)

/-- Spec vocabulary: a lowercase hexadecimal digit character
(`0`-`9` or `a`-`f`). -/
def specLowerHexDigit (c : Char) : Bool :=
  (0x30 ≤ c.toNat && c.toNat ≤ 0x39) || (0x61 ≤ c.toNat && c.toNat ≤ 0x66)

/-- Spec vocabulary: numeric value of one hexadecimal digit character. -/
def specHexCharVal (c : Char) : Nat :=
  if c.toNat ≤ 0x39 then c.toNat - 0x30 else c.toNat - 0x57

/-- Spec vocabulary: numeric value of a big-endian list of hexadecimal
digit characters. -/
def specHexVal (l : List Char) : Nat :=
  l.foldl (fun a c => 16 * a + specHexCharVal c) 0

theorem hexDigitChar_lower (m : Nat) (hm : m < 16) :
    specLowerHexDigit (hexDigitChar m) = true := by
  interval_cases m <;> decide

theorem hexDigitChar_val (m : Nat) (hm : m < 16) :
    specHexCharVal (hexDigitChar m) = m := by
  interval_cases m <;> decide

theorem specHexVal_dropWhile_zero :
    ∀ l : List Char, specHexVal (l.dropWhile (fun c => c == '0')) = specHexVal l := by
  intro l
  induction l with
  | nil => rfl
  | cons c t ih =>
      by_cases hc : c = '0'
      · subst hc
        rw [List.dropWhile_cons_of_pos (by decide)]
        rw [ih]
        rfl
      · rw [List.dropWhile_cons_of_neg (by simpa using hc)]

theorem specHexVal_replicate_zero (k : Nat) (l : List Char) :
    specHexVal (List.replicate k '0' ++ l) = specHexVal l := by
  induction k with
  | zero => simp
  | succ n ih =>
      rw [List.replicate_succ, List.cons_append]
      exact ih

theorem format04x_all_lower (n : Nat) :
    ∀ x ∈ format04x n, specLowerHexDigit x = true := by
  intro x hx
  simp only [format04x, List.mem_append, List.mem_replicate] at hx
  rcases hx with ⟨-, rfl⟩ | hx
  · decide
  · have hx6 := (List.dropWhile_sublist (fun c => c == '0')).subset hx
    simp only [List.mem_map, List.mem_cons, List.not_mem_nil, or_false] at hx6
    obtain ⟨m, hm, rfl⟩ := hx6
    rcases hm with rfl | rfl | rfl | rfl | rfl | rfl <;>
      exact hexDigitChar_lower _ (Nat.mod_lt _ (by norm_num))

theorem format04x_val (n : Nat) (hn : n < 16 ^ 6) :
    specHexVal (format04x n) = n := by
  have hn' : n < 16777216 := by norm_num at hn; exact hn
  have e5 : specHexCharVal (hexDigitChar (n / 1048576 % 16)) = n / 1048576 % 16 :=
    hexDigitChar_val _ (Nat.mod_lt _ (by norm_num))
  have e4 : specHexCharVal (hexDigitChar (n / 65536 % 16)) = n / 65536 % 16 :=
    hexDigitChar_val _ (Nat.mod_lt _ (by norm_num))
  have e3 : specHexCharVal (hexDigitChar (n / 4096 % 16)) = n / 4096 % 16 :=
    hexDigitChar_val _ (Nat.mod_lt _ (by norm_num))
  have e2 : specHexCharVal (hexDigitChar (n / 256 % 16)) = n / 256 % 16 :=
    hexDigitChar_val _ (Nat.mod_lt _ (by norm_num))
  have e1 : specHexCharVal (hexDigitChar (n / 16 % 16)) = n / 16 % 16 :=
    hexDigitChar_val _ (Nat.mod_lt _ (by norm_num))
  have e0 : specHexCharVal (hexDigitChar (n % 16)) = n % 16 :=
    hexDigitChar_val _ (Nat.mod_lt _ (by norm_num))
  show specHexVal (List.replicate _ '0' ++ _) = n
  rw [specHexVal_replicate_zero, specHexVal_dropWhile_zero]
  simp only [specHexVal, List.foldl, List.map, e5, e4, e3, e2, e1, e0]
  omega

theorem format04x_len_ge (n : Nat) : 4 ≤ (format04x n).length := by
  simp only [format04x, List.length_append, List.length_replicate]
  omega

theorem format04x_len_eq (n : Nat) (hn : n ≤ 0xffff) :
    (format04x n).length = 4 := by
  have h5 : n / 1048576 = 0 := Nat.div_eq_of_lt (by omega)
  have h4 : n / 65536 = 0 := Nat.div_eq_of_lt (by omega)
  have h0 : hexDigitChar 0 = '0' := by decide
  simp only [format04x, List.map, h5, h4, Nat.zero_mod, h0]
  rw [List.dropWhile_cons_of_pos (by decide), List.dropWhile_cons_of_pos (by decide)]
  have hle := (List.dropWhile_sublist
    (fun c => c == '0')
    (l := [hexDigitChar (n / 4096 % 16), hexDigitChar (n / 256 % 16),
           hexDigitChar (n / 16 % 16), hexDigitChar (n % 16)])).length_le
  simp only [List.length_cons, List.length_nil] at hle
  simp only [List.length_append, List.length_replicate]
  omega

theorem encode_ascii_data (l : List Char) (h : ∀ c ∈ l, c.toNat ≤ 0x7f) :
    (l.map (fun c => if c.toNat ≤ 0x7f then [c] else codepoint_escape c)).flatten = l := by
  induction l with
  | nil => rfl
  | cons c t ih =>
      have hc : c.toNat ≤ 0x7f := h c (by simp)
      simp only [List.map_cons, List.flatten_cons, if_pos hc, List.singleton_append]
      rw [ih (fun x hx => h x (by simp [hx]))]

theorem char_toNat_lt (c : Char) : c.toNat < 0x110000 := by
  have h := c.valid
  rcases h with h | ⟨h1, h2⟩
  · exact Nat.lt_trans h (by norm_num)
  · exact h2

/-- C3, counterexample.  Python's `'{0:04x}'` format pads to a *minimum*
of four hex digits: the code point `U+10000` is escaped as backslash-u
followed by the five hex digits `10000` (seven characters in all),
refuting the claim's "exactly-4-hex-digit escape" for code points above
`0xffff`. -/
theorem C3_exactly_four_counterexample :
    encode_unicode_codepoints (String.mk [Char.ofNat 0x10000]) = "\\u10000" ∧
    (encode_unicode_codepoints (String.mk [Char.ofNat 0x10000])).length ≠ 6 := by
  constructor <;> decide

/-- C3 (amended): `encode_unicode_codepoints` is the identity on every
string all of whose code points are below `0x80`; it distributes over
concatenation; every character below `0x80` passes through unchanged;
and every code point at or above `0x80` is rewritten as `\u` followed by
its own lowercase hexadecimal digits (parsing the digits back yields the
code point), zero-padded to a minimum of four digits — exactly four
whenever the code point is at most `0xffff` (larger code points get five
or six digits). -/
theorem C3_encode_unicode_codepoints_amended :
    (∀ s : String, (∀ c ∈ s.data, c.toNat ≤ 0x7f) → encode_unicode_codepoints s = s) ∧
    (∀ s t : String, encode_unicode_codepoints (s ++ t)
        = encode_unicode_codepoints s ++ encode_unicode_codepoints t) ∧
    (∀ c : Char, c.toNat ≤ 0x7f →
        encode_unicode_codepoints (String.mk [c]) = String.mk [c]) ∧
    (∀ c : Char, 0x80 ≤ c.toNat →
        ∃ d : List Char,
          encode_unicode_codepoints (String.mk [c]) = String.mk ('\\' :: 'u' :: d) ∧
          (∀ x ∈ d, specLowerHexDigit x = true) ∧
          4 ≤ d.length ∧
          (c.toNat ≤ 0xffff → d.length = 4) ∧
          specHexVal d = c.toNat) := by
  refine ⟨?_, ?_, ?_, ?_⟩
  · intro s h
    obtain ⟨l⟩ := s
    apply String.ext
    exact encode_ascii_data l h
  · intro s t
    obtain ⟨a⟩ := s
    obtain ⟨b⟩ := t
    show encode_unicode_codepoints (String.mk (a ++ b)) = String.mk _
    simp [encode_unicode_codepoints]
  · intro c hc
    apply String.ext
    show (List.map (fun c => if c.toNat ≤ 0x7f then [c] else codepoint_escape c) [c]).flatten
      = [c]
    simp [if_pos hc]
  · intro c hc
    refine ⟨format04x c.toNat, ?_, format04x_all_lower _, format04x_len_ge _,
      fun h => format04x_len_eq _ h, format04x_val _ ?_⟩
    · have hc7 : ¬ c.toNat ≤ 0x7f := by omega
      apply String.ext
      show (List.map (fun c => if c.toNat ≤ 0x7f then [c] else codepoint_escape c) [c]).flatten
        = '\\' :: 'u' :: format04x c.toNat
      simp [if_neg hc7, codepoint_escape]
    · have := char_toNat_lt c
      norm_num
      omega

/-- C3 (amended), witness: the amended theorem applied to the ASCII
string `"abc"` and to the code point `U+4E16`. -/
theorem C3_encode_unicode_codepoints_amended_witness :
    encode_unicode_codepoints ("abc") = "abc" ∧
    ∃ d : List Char,
      encode_unicode_codepoints (String.mk [Char.ofNat 0x4e16])
        = String.mk ('\\' :: 'u' :: d) ∧ specHexVal d = 0x4e16 := by
  constructor
  · exact C3_encode_unicode_codepoints_amended.1 ("abc") (by decide)
  · obtain ⟨d, h1, -, -, -, h5⟩ :=
      C3_encode_unicode_codepoints_amended.2.2.2 (Char.ofNat 0x4e16) (by decide)
    exact ⟨d, h1, by rw [h5]; decide⟩

/-! ### Runtime selection: `get` / `_auto_detect` / `get_from_environment`
(claims C4, C5) -/

/-- A registered runtime as the selector sees it: its display name
(`ExternalRuntime.name`, which may differ from its registry key — the
`Node` key maps to display name `Node.js (V8)`) and the result of its
cached `is_available()` probe. -/
structure JSRuntime where
  name : String
  available : Bool
  deriving DecidableEq

/-- The selector's exception class `RuntimeUnavailable`, carrying its
message. -/
inductive SelErr where
  | runtimeUnavailable (msg : String)
  deriving DecidableEq

/-- Lookup in the module-level `_runtimes` `OrderedDict`, modelled as an
association list in insertion order with unique keys. -/
def lookupReg (reg : List (String × JSRuntime)) (n : String) : Option JSRuntime :=
  (reg.find? (fun p => p.1 == n)).map (fun p => p.2)

/-- Embeds the explicit-name branch of `get` (`__init__.py` lines 83-91):
an unknown key raises `RuntimeUnavailable` naming the requested name; a
known but unavailable runtime raises `RuntimeUnavailable` naming the
runtime's display name.  The source writes this branch inside `get`
itself; it is split out here because `get_from_environment` re-enters
`get` with a non-`None` name. -/
def get_by_name (reg : List (String × JSRuntime)) (name : String) :
    Except SelErr JSRuntime :=
  match lookupReg reg name with
  | none => Except.error (SelErr.runtimeUnavailable (name ++ " runtime is not defined"))
  | some runtime =>
      if runtime.available then Except.ok runtime
      else Except.error (SelErr.runtimeUnavailable
        (runtime.name ++ " runtime is not available on this system"))

/-- Embeds `get_from_environment` (`__init__.py` lines 116-129).  The
`EXECJS_RUNTIME` environment variable is the oracle `env`: `none` when
the variable is absent (`KeyError`), otherwise its string value.  An
empty value returns `None`; any other value re-enters `get(name)` and
propagates its exception. -/
def get_from_environment (reg : List (String × JSRuntime)) (env : Option String) :
    Except SelErr (Option JSRuntime) :=
  match env with
  | none => Except.ok none
  | some name =>
      if name = "" then Except.ok none
      else (get_by_name reg name).map some

/-- Embeds `_auto_detect` (`__init__.py` lines 104-113): consult the
environment; on `None` fall back to the first available runtime in
`_runtimes.values()` (insertion) order; raise `RuntimeUnavailable` when
none is available. -/
def _auto_detect (reg : List (String × JSRuntime)) (env : Option String) :
    Except SelErr JSRuntime :=
  match get_from_environment reg env with
  | Except.error e => Except.error e
  | Except.ok (some runtime) => Except.ok runtime
  | Except.ok none =>
      match (reg.map (fun p => p.2)).find? (fun r => r.available) with
      | some runtime => Except.ok runtime
      | none => Except.error (SelErr.runtimeUnavailable
          ("Could not find a JavaScript runtime."))

/-- Embeds `get` (`__init__.py` lines 75-91): `name = None` auto-detects;
an explicit name runs the registry branch and never consults the
environment. -/
def get (reg : List (String × JSRuntime)) (env : Option String) :
    Option String → Except SelErr JSRuntime
  | none => _auto_detect reg env
  | some name => get_by_name reg name

/-- C4: with no explicit name, when `EXECJS_RUNTIME` is absent or empty
`get` returns the first runtime in registry order whose availability
probe is true and raises `RuntimeUnavailable` when none is available;
when the variable names a known, available runtime, that runtime is
returned; when it names an unknown or unavailable runtime, `get` fails
with `RuntimeUnavailable` — with no hypothesis on the rest of the
registry, so it never falls through to priority-order auto-detection
even when other runtimes are available. -/
theorem C4_get_auto_detection (reg : List (String × JSRuntime)) :
    (∀ env, (env = none ∨ env = some ("")) →
       (∀ pre r post, reg.map (fun p => p.2) = pre ++ r :: post →
          (∀ x ∈ pre, x.available = false) → r.available = true →
          get reg env none = Except.ok r) ∧
       ((∀ r ∈ reg.map (fun p => p.2), r.available = false) →
          get reg env none = Except.error (SelErr.runtimeUnavailable
            ("Could not find a JavaScript runtime.")))) ∧
    (∀ n r, ¬ n = "" → lookupReg reg n = some r → r.available = true →
       get reg (some n) none = Except.ok r) ∧
    (∀ n, ¬ n = "" → lookupReg reg n = none →
       get reg (some n) none = Except.error (SelErr.runtimeUnavailable
         (n ++ " runtime is not defined"))) ∧
    (∀ n r, ¬ n = "" → lookupReg reg n = some r → r.available = false →
       get reg (some n) none = Except.error (SelErr.runtimeUnavailable
         (r.name ++ " runtime is not available on this system"))) := by
  have hauto : ∀ env, env = none ∨ env = some ("") →
      get reg env none = _auto_detect reg env := fun _ _ => rfl
  have henv : ∀ env, env = none ∨ env = some ("") →
      get_from_environment reg env = Except.ok none := by
    rintro env (rfl | rfl) <;> simp [get_from_environment]
  refine ⟨?_, ?_, ?_, ?_⟩
  · intro env he
    constructor
    · intro pre r post hsplit hpre hr
      rw [hauto env he]
      unfold _auto_detect
      rw [henv env he, hsplit, List.find?_append]
      rw [List.find?_eq_none.mpr (fun x hx => by simp [hpre x hx]),
        List.find?_cons_of_pos _ hr]
      rfl
    · intro hall
      rw [hauto env he]
      unfold _auto_detect
      rw [henv env he, List.find?_eq_none.mpr (fun x hx => by simp [hall x hx])]
  · intro n r hne hl ha
    have hgbn : get_by_name reg n = Except.ok r := by
      unfold get_by_name
      rw [hl]
      simp [ha]
    show _auto_detect reg (some n) = _
    unfold _auto_detect get_from_environment
    simp [hne, hgbn, Except.map]
  · intro n hne hl
    have hgbn : get_by_name reg n = Except.error (SelErr.runtimeUnavailable
        (n ++ " runtime is not defined")) := by
      unfold get_by_name
      rw [hl]
    show _auto_detect reg (some n) = _
    unfold _auto_detect get_from_environment
    simp [hne, hgbn, Except.map]
  · intro n r hne hl ha
    have hgbn : get_by_name reg n = Except.error (SelErr.runtimeUnavailable
        (r.name ++ " runtime is not available on this system")) := by
      unfold get_by_name
      rw [hl]
      simp [ha]
    show _auto_detect reg (some n) = _
    unfold _auto_detect get_from_environment
    simp [hne, hgbn, Except.map]

/-- Concrete two-runtime registry: key `A` registered but unavailable,
key `B` available. -/
def regAB : List (String × JSRuntime) :=
  [("A", ⟨"A", false⟩), ("B", ⟨"B", true⟩)]

/-- C4, witness: on the concrete registry `regAB`, auto-detection with an
absent environment variable skips unavailable `A` and returns `B`; an
environment variable naming the unknown runtime `Zzz` fails fast even
though `B` is available. -/
theorem C4_get_auto_detection_witness :
    get regAB none none = Except.ok ⟨"B", true⟩ ∧
    get regAB (some ("Zzz")) none = Except.error (SelErr.runtimeUnavailable
      ("Zzz" ++ " runtime is not defined")) := by
  constructor
  · exact ((C4_get_auto_detection regAB).1 none (Or.inl rfl)).1
      [⟨"A", false⟩] ⟨"B", true⟩ [] (by decide) (by decide) (by decide)
  · exact (C4_get_auto_detection regAB).2.2.1 ("Zzz") (by decide) (by decide)

/-- C5: `get` with an explicit name not present in the registry raises
`RuntimeUnavailable` with a message that contains the unknown name (the
name is the message's prefix); with a name that is present but whose
runtime's `is_available()` is false, it raises `RuntimeUnavailable`
identifying that runtime by its display name.  The environment variable
plays no role in either case. -/
theorem C5_get_unknown_or_unavailable (reg : List (String × JSRuntime))
    (env : Option String) (n : String) :
    (lookupReg reg n = none →
       get reg env (some n) = Except.error (SelErr.runtimeUnavailable
         (n ++ " runtime is not defined"))) ∧
    (∀ r, lookupReg reg n = some r → r.available = false →
       get reg env (some n) = Except.error (SelErr.runtimeUnavailable
         (r.name ++ " runtime is not available on this system"))) := by
  constructor
  · intro hl
    show get_by_name reg n = _
    unfold get_by_name
    rw [hl]
  · intro r hl ha
    show get_by_name reg n = _
    unfold get_by_name
    rw [hl]
    simp [ha]

/-- C5, witness: on the concrete registry `regAB`, requesting the
unknown name `Zzz` and the registered-but-unavailable name `A`. -/
theorem C5_get_unknown_or_unavailable_witness :
    get regAB none (some ("Zzz")) = Except.error (SelErr.runtimeUnavailable
      ("Zzz" ++ " runtime is not defined")) ∧
    get regAB none (some ("A")) = Except.error (SelErr.runtimeUnavailable
      ("A" ++ " runtime is not available on this system")) := by
  constructor
  · exact (C5_get_unknown_or_unavailable regAB none ("Zzz")).1 (by decide)
  · exact (C5_get_unknown_or_unavailable regAB none ("A")).2 ⟨"A", false⟩
      (by decide) (by decide)

/-! ### Expression evaluation template: `Context.eval` (claim C7) -/

/-- The single-quote character, written via its code point so that no
string literal in this file carries a quote character. -/
def sq : String := String.mk [Char.ofNat 39]

/-- Python whitespace for `str.strip()` with no argument: the code
points for which `Py_UNICODE_ISSPACE` holds. -/
def py_isspace (c : Char) : Bool :=
  (0x9 ≤ c.toNat && c.toNat ≤ 0xd) || c.toNat == 0x20 ||
  (0x1c ≤ c.toNat && c.toNat ≤ 0x1f) || c.toNat == 0x85 || c.toNat == 0xa0 ||
  c.toNat == 0x1680 || (0x2000 ≤ c.toNat && c.toNat ≤ 0x200a) ||
  c.toNat == 0x2028 || c.toNat == 0x2029 || c.toNat == 0x202f ||
  c.toNat == 0x205f || c.toNat == 0x3000

/-- Embeds `source.strip()`: remove leading and trailing whitespace. -/
def py_strip (s : String) : List Char :=
  ((s.data.dropWhile py_isspace).reverse.dropWhile py_isspace).reverse

/-- Embeds the character escaping of Python's `json.dumps` with
`ensure_ascii=True` (a black-box collaborator, spec section 1): `\` and
`"` and the named control escapes come first; printable ASCII
(`0x20`-`0x7e`) passes through; every other code point below `0x10000`
becomes one four-digit escape; an astral code point becomes a UTF-16
surrogate pair of two escapes. -/
def json_escape_char (c : Char) : List Char :=
  if c = '\\' then ['\\', '\\']
  else if c = '"' then ['\\', '"']
  else if c.toNat = 0x8 then ['\\', 'b']
  else if c.toNat = 0x9 then ['\\', 't']
  else if c.toNat = 0xa then ['\\', 'n']
  else if c.toNat = 0xc then ['\\', 'f']
  else if c.toNat = 0xd then ['\\', 'r']
  else if 0x20 ≤ c.toNat && c.toNat ≤ 0x7e then [c]
  else if c.toNat < 0x10000 then '\\' :: 'u' :: format04x c.toNat
  else
    ('\\' :: 'u' :: format04x (0xd800 + (c.toNat - 0x10000) / 0x400)) ++
    ('\\' :: 'u' :: format04x (0xdc00 + (c.toNat - 0x10000) % 0x400))

/-- Embeds `json.dumps(source, ensure_ascii=True)` on a string argument:
a double-quoted, ASCII-only string literal. -/
def json_dumps_str (s : String) : String :=
  String.mk ('"' :: ((s.data.map json_escape_char).flatten ++ ['"']))

/-- Embeds `ExternalRuntime.Context.eval` (`__init__.py` lines 259-266)
up to its tail call `self.exec_(code)`: the program text handed to
`exec_`.  A falsy `source.strip()` selects the literal `''` as `data`;
otherwise `data` is the concatenation expression `'('+<json literal>+')'`;
the program is `return eval(<data>)`. -/
def eval_program (source : String) : String :=
  let data :=
    if py_strip source = [] then sq ++ sq
    else sq ++ "(" ++ sq ++ "+" ++ json_dumps_str source ++ "+" ++ sq ++ ")" ++ sq
  "return eval(" ++ data ++ ")"

/-- Modelled from the spec: the claim's synthesized program shape
`return eval(<expression as a double-quoted, ASCII-escaped structured
string literal>)`, with the empty special case, for comparison against
the source's template. -/
def spec_eval_program (source : String) : String :=
  if py_strip source = [] then "return eval(" ++ sq ++ sq ++ ")"
  else "return eval(" ++ json_dumps_str source ++ ")"

theorem all_of_all_dropWhile (p : Char → Bool) :
    ∀ l : List Char, (∀ x ∈ l.dropWhile p, p x) → ∀ x ∈ l, p x := by
  intro l
  induction l with
  | nil => intro _ x hx; cases hx
  | cons c t ih =>
      intro h x hx
      by_cases hc : p c
      · rw [List.dropWhile_cons_of_pos hc] at h
        rcases List.mem_cons.mp hx with rfl | hx2
        · exact hc
        · exact ih h x hx2
      · rw [List.dropWhile_cons_of_neg hc] at h
        exact absurd (h c (List.mem_cons_self c t)) hc

theorem py_strip_eq_nil_iff (s : String) :
    py_strip s = [] ↔ s.data.all py_isspace = true := by
  unfold py_strip
  rw [List.reverse_eq_nil_iff, List.dropWhile_eq_nil_iff, List.all_eq_true]
  constructor
  · intro h x hx
    exact all_of_all_dropWhile py_isspace s.data
      (fun y hy => h y (List.mem_reverse.mpr hy)) x hx
  · intro h x hx
    exact h x ((List.dropWhile_sublist py_isspace).subset (List.mem_reverse.mp hx))

theorem specLowerHexDigit_ascii (x : Char) (h : specLowerHexDigit x = true) :
    x.toNat < 0x80 := by
  simp only [specLowerHexDigit, Bool.or_eq_true, Bool.and_eq_true,
    decide_eq_true_eq] at h
  omega

theorem json_escape_char_ascii (c : Char) :
    ∀ x ∈ json_escape_char c, x.toNat < 0x80 := by
  intro x hx
  unfold json_escape_char at hx
  split_ifs at hx with h1 h2 h3 h4 h5 h6 h7 h8 h9
  · rcases List.mem_cons.mp hx with rfl | hx2 <;> simp_all
  · rcases List.mem_cons.mp hx with rfl | hx2 <;> simp_all
  · rcases List.mem_cons.mp hx with rfl | hx2 <;> simp_all
  · rcases List.mem_cons.mp hx with rfl | hx2 <;> simp_all
  · rcases List.mem_cons.mp hx with rfl | hx2 <;> simp_all
  · rcases List.mem_cons.mp hx with rfl | hx2 <;> simp_all
  · rcases List.mem_cons.mp hx with rfl | hx2 <;> simp_all
  · simp only [Bool.and_eq_true, decide_eq_true_eq] at h8
    rcases List.mem_cons.mp hx with rfl | hx2
    · omega
    · cases hx2
  · rcases List.mem_cons.mp hx with rfl | hx2
    · decide
    · rcases List.mem_cons.mp hx2 with rfl | hx3
      · decide
      · exact specLowerHexDigit_ascii x (format04x_all_lower _ x hx3)
  · rcases List.mem_append.mp hx with hx2 | hx2 <;>
      rcases List.mem_cons.mp hx2 with rfl | hx3
    · decide
    · rcases List.mem_cons.mp hx3 with rfl | hx4
      · decide
      · exact specLowerHexDigit_ascii x (format04x_all_lower _ x hx4)
    · decide
    · rcases List.mem_cons.mp hx3 with rfl | hx4
      · decide
      · exact specLowerHexDigit_ascii x (format04x_all_lower _ x hx4)

/-- C7, counterexample.  For the expression `1` the source synthesizes
the program `return eval('('+"1"+')')` — the JSON literal wrapped inside
a parenthesizing string concatenation — which differs from the claim's
template `return eval("1")`. -/
theorem C7_eval_template_counterexample :
    eval_program ("1") ≠ spec_eval_program ("1") ∧
    eval_program ("1")
      = "return eval(" ++ sq ++ "(" ++ sq ++ "+" ++ "\"1\"" ++ "+" ++ sq ++ ")" ++ sq ++ ")" := by
  constructor <;> decide

/-- C7 (amended): `Context.eval` delegates to `exec_` with the
synthesized program `return eval('('+<expression as a double-quoted,
ASCII-escaped structured string literal>+')')` — the literal is wrapped
in a parenthesizing string concatenation — and for every empty or
whitespace-only expression the program is exactly `return eval('')`, so
no invalid empty literal is produced.  The rendered literal is genuinely
double-quoted and ASCII-escaped: it starts and ends with `"` and every
character of it is below `0x80`. -/
theorem C7_eval_program_amended (source : String) :
    (source.data.all py_isspace = true →
       eval_program source = "return eval(" ++ sq ++ sq ++ ")") ∧
    (source.data.all py_isspace = false →
       eval_program source
         = "return eval(" ++ sq ++ "(" ++ sq ++ "+" ++ json_dumps_str source
             ++ "+" ++ sq ++ ")" ++ sq ++ ")") ∧
    (json_dumps_str source).data.head? = some '"' ∧
    (json_dumps_str source).data.getLast? = some '"' ∧
    (∀ c ∈ (json_dumps_str source).data, c.toNat < 0x80) := by
  refine ⟨?_, ?_, rfl, ?_, ?_⟩
  · intro h
    unfold eval_program
    rw [if_pos ((py_strip_eq_nil_iff source).mpr h)]
    rfl
  · intro h
    unfold eval_program
    rw [if_neg (fun hc => by rw [(py_strip_eq_nil_iff source).mp hc] at h; cases h)]
    simp [String.append_assoc]
  · show ('"' :: ((source.data.map json_escape_char).flatten ++ ['"'])).getLast? = some '"'
    rw [← List.cons_append, List.getLast?_concat]
  · intro c hc
    have hc2 : c ∈ ('"' :: ((source.data.map json_escape_char).flatten ++ ['"'])) := hc
    rcases List.mem_cons.mp hc2 with rfl | hc3
    · decide
    · rcases List.mem_append.mp hc3 with hc4 | hc4
      · obtain ⟨l, hl, hcl⟩ := List.mem_flatten.mp hc4
        obtain ⟨d, _, rfl⟩ := List.mem_map.mp hl
        exact json_escape_char_ascii d c hcl
      · rcases List.mem_cons.mp hc4 with rfl | hc5
        · decide
        · cases hc5

/-- C7 (amended), witness: the amended theorem applied to the
whitespace-only expression `" "` and to the expression `1`. -/
theorem C7_eval_program_amended_witness :
    eval_program (" ") = "return eval(" ++ sq ++ sq ++ ")" ∧
    eval_program ("1")
      = "return eval(" ++ sq ++ "(" ++ sq ++ "+" ++ json_dumps_str ("1")
          ++ "+" ++ sq ++ ")" ++ sq ++ ")" := by
  exact ⟨(C7_eval_program_amended (" ")).1 (by decide),
         (C7_eval_program_amended ("1")).2.1 (by decide)⟩

/-! ### Binary locator: `_find_executable` / `_which` (claim C8) -/

/-- Embeds Python's `str.split(sep)` for a one-character separator (both
platform path separators, and the line separator used by `exec_`, are
single characters): no collapsing of adjacent separators, and the result
always has one more part than there are separators. -/
def py_split (sep : Char) : List Char → List (List Char)
  | [] => [[]]
  | c :: rest =>
      if c = sep then [] :: py_split sep rest
      else
        match py_split sep rest with
        | [] => [[c]]
        | l :: ls => (c :: l) :: ls

/-- Embeds `stat.S_ISREG(st.st_mode)`: the file-type bits equal the
regular-file code. -/
def S_ISREG (mode : Nat) : Bool := mode &&& 0o170000 == 0o100000

/-- Embeds `stat.S_IMODE(st.st_mode) & 0o111` being nonzero: some
execute permission bit is set. -/
def hasExecBit (mode : Nat) : Bool := ((mode &&& 0o7777) &&& 0o111) != 0

/-- The test a stat result must pass in `_find_executable`
(`__init__.py` line 168). -/
def isExecRegular (mode : Nat) : Bool := S_ISREG mode && hasExecBit mode

/-- Embeds `os.path.join(dir, name)` (black-box collaborator) for the
POSIX flavor and a relative `name`: an empty directory yields the name
alone; a directory already ending in the separator is not doubled. -/
def joinPath (dir f : String) : String :=
  if dir = "" then f
  else if dir.data.getLast? = some '/' then dir ++ f
  else dir ++ "/" ++ f

/-- Whether the stat oracle reports an executable regular file at `f`:
`os.stat` raising `os.error` is the oracle's `none` and counts as a
miss, exactly as the `except os.error: continue` of the source treats
it (the failure is swallowed, never raised). -/
def statHit (statf : String → Option Nat) (f : String) : Bool :=
  match statf f with
  | none => false
  | some mode => isExecRegular mode

/-- Embeds the inner suffix loop of `_find_executable` (`__init__.py`
lines 162-169) for one directory: try `dir/prog+ext` for each suffix in
order; a failed `os.stat` is skipped; a stat result is kept only for an
executable regular file. -/
def try_exts (statf : String → Option Nat) (dir prog : String) :
    List String → Option String
  | [] => none
  | ext :: rest =>
      let filename := joinPath dir (prog ++ ext)
      match statf filename with
      | none => try_exts statf dir prog rest
      | some mode =>
          if isExecRegular mode then some filename
          else try_exts statf dir prog rest

/-- Embeds the outer directory loop of `_find_executable`
(`__init__.py` lines 161-169). -/
def find_exec_dirs (statf : String → Option Nat) (prog : String)
    (pathext : List String) : List String → Option String
  | [] => none
  | dir :: dirs =>
      match try_exts statf dir prog pathext with
      | some f => some f
      | none => find_exec_dirs statf prog pathext dirs

/-- Embeds `_find_executable(prog, pathext)` (`__init__.py` lines
158-170): split the `PATH` oracle value on the platform path separator
`psep` and scan directories (outer loop) and suffixes (inner loop) in
order.  The filesystem is the oracle `statf`: `none` models `os.stat`
raising `os.error`, `some mode` a successful stat of `st_mode`. -/
def _find_executable (statf : String → Option Nat) (path_env : String)
    (psep : Char) (prog : String) (pathext : List String) : Option String :=
  find_exec_dirs statf prog pathext ((py_split psep path_env.data).map String.mk)

/-- Embeds `_which(command)` (`__init__.py` lines 173-188) on an already
listified command (`_which` turns a bare string into a one-element
list; an empty command would raise `IndexError` at `command[0]` and is
unreachable from the registry, whose command forms are nonempty).  Only
the first token is searched for — on Windows with the `PATHEXT`
suffixes, elsewhere with the single empty suffix; a falsy path (`None`
or the empty string) gives `None`; otherwise the found path replaces the
first token and the remaining tokens pass through unchanged. -/
def _which (statf : String → Option Nat) (isWindows : Bool)
    (path_env pathext_env : String) : List String → Option (List String)
  | [] => none
  | name :: args =>
      let path :=
        if isWindows then
          _find_executable statf path_env (';') name
            ((py_split ';' pathext_env.data).map String.mk)
        else
          _find_executable statf path_env (':') name [""]
      match path with
      | none => none
      | some p => if p = "" then none else some (p :: args)

theorem try_exts_none (statf : String → Option Nat) (dir prog : String) :
    ∀ exts, (∀ ext ∈ exts, statHit statf (joinPath dir (prog ++ ext)) = false) →
      try_exts statf dir prog exts = none := by
  intro exts
  induction exts with
  | nil => intro _; rfl
  | cons e rest ih =>
      intro h
      have he := h e (List.mem_cons_self e rest)
      unfold try_exts
      unfold statHit at he
      cases hstat : statf (joinPath dir (prog ++ e)) with
      | none => simpa [hstat] using ih (fun x hx => h x (List.mem_cons_of_mem e hx))
      | some mode =>
          simp only [hstat] at he
          simpa [hstat, he] using ih (fun x hx => h x (List.mem_cons_of_mem e hx))

theorem try_exts_found (statf : String → Option Nat) (dir prog : String)
    (ext : String) (e2 : List String) :
    ∀ e1, (∀ e ∈ e1, statHit statf (joinPath dir (prog ++ e)) = false) →
      statHit statf (joinPath dir (prog ++ ext)) = true →
      try_exts statf dir prog (e1 ++ ext :: e2) = some (joinPath dir (prog ++ ext)) := by
  intro e1
  induction e1 with
  | nil =>
      intro _ hhit
      unfold statHit at hhit
      cases hstat : statf (joinPath dir (prog ++ ext)) with
      | none => rw [hstat] at hhit; cases hhit
      | some mode =>
          simp only [hstat] at hhit
          rw [List.nil_append]
          unfold try_exts
          simp [hstat, hhit]
  | cons e rest ih =>
      intro hpre hhit
      have he := hpre e (List.mem_cons_self e rest)
      unfold statHit at he
      rw [List.cons_append]
      unfold try_exts
      cases hstat : statf (joinPath dir (prog ++ e)) with
      | none =>
          simpa [hstat] using ih (fun x hx => hpre x (List.mem_cons_of_mem e hx)) hhit
      | some mode =>
          simp only [hstat] at he
          simpa [hstat, he] using ih (fun x hx => hpre x (List.mem_cons_of_mem e hx)) hhit

theorem find_exec_dirs_none (statf : String → Option Nat) (prog : String)
    (pathext : List String) :
    ∀ dirs, (∀ dir ∈ dirs, ∀ e ∈ pathext, statHit statf (joinPath dir (prog ++ e)) = false) →
      find_exec_dirs statf prog pathext dirs = none := by
  intro dirs
  induction dirs with
  | nil => intro _; rfl
  | cons d rest ih =>
      intro h
      unfold find_exec_dirs
      rw [try_exts_none statf d prog pathext (h d (List.mem_cons_self d rest))]
      exact ih (fun x hx => h x (List.mem_cons_of_mem d hx))

theorem find_exec_dirs_found (statf : String → Option Nat) (prog : String)
    (pathext : List String) (dir : String) (d2 : List String) (f : String)
    (hthis : try_exts statf dir prog pathext = some f) :
    ∀ d1, (∀ d ∈ d1, ∀ e ∈ pathext, statHit statf (joinPath d (prog ++ e)) = false) →
      find_exec_dirs statf prog pathext (d1 ++ dir :: d2) = some f := by
  intro d1
  induction d1 with
  | nil =>
      intro _
      rw [List.nil_append]
      unfold find_exec_dirs
      rw [hthis]
  | cons d rest ih =>
      intro hpre
      rw [List.cons_append]
      unfold find_exec_dirs
      rw [try_exts_none statf d prog pathext (hpre d (List.mem_cons_self d rest))]
      exact ih (fun x hx => hpre x (List.mem_cons_of_mem d hx))

/-- C8: the binary locator returns the first match with `PATH`-directory
order as the outer loop and executable-suffix order as the inner loop;
stat failures are treated as not-found (the oracle's `none` branch) and
are never surfaced; when nothing matches the result is `None`; and for a
multi-token command `_which` searches only the first token, appending
the remaining tokens unchanged to the returned invocation command. -/
theorem C8_locator_order_and_passthrough (statf : String → Option Nat)
    (path_env prog : String) (pathext : List String) :
    (∀ d1 dir d2 e1 ext e2,
       (py_split ':' path_env.data).map String.mk = d1 ++ dir :: d2 →
       pathext = e1 ++ ext :: e2 →
       (∀ d ∈ d1, ∀ e ∈ pathext, statHit statf (joinPath d (prog ++ e)) = false) →
       (∀ e ∈ e1, statHit statf (joinPath dir (prog ++ e)) = false) →
       statHit statf (joinPath dir (prog ++ ext)) = true →
       _find_executable statf path_env (':') prog pathext
         = some (joinPath dir (prog ++ ext))) ∧
    ((∀ dir ∈ (py_split ':' path_env.data).map String.mk, ∀ e ∈ pathext,
        statHit statf (joinPath dir (prog ++ e)) = false) →
       _find_executable statf path_env (':') prog pathext = none) ∧
    (∀ name args,
       (_find_executable statf path_env (':') name [""] = none →
          _which statf false path_env ("") (name :: args) = none) ∧
       (∀ p, _find_executable statf path_env (':') name [""] = some p → ¬ p = "" →
          _which statf false path_env ("") (name :: args) = some (p :: args))) := by
  refine ⟨?_, ?_, ?_⟩
  · intro d1 dir d2 e1 ext e2 hsplit hext hd1 he1 hhit
    unfold _find_executable
    rw [hsplit]
    exact find_exec_dirs_found statf prog pathext dir d2 _
      (by rw [hext]; exact try_exts_found statf dir prog ext e2 e1 he1 hhit) d1 hd1
  · intro hall
    unfold _find_executable
    exact find_exec_dirs_none statf prog pathext _ hall
  · intro name args
    constructor
    · intro hnone
      unfold _which
      simp [hnone]
    · intro p hp hpne
      unfold _which
      simp [hp, hpne]

/-- Concrete filesystem for the C8 witness: a regular executable
`node` under `/usr/bin`; stat fails everywhere else (as it does for the
whole missing directory `/usr/local/bin`). -/
def statfW : String → Option Nat := fun f =>
  if f = "/usr/bin/node" then some 0o100755 else none

/-- C8, witness: the order theorem applied to the concrete filesystem
`statfW` with `PATH=/usr/local/bin:/usr/bin` — the stat failure in the
first directory is skipped, the file in the second is found, and the
extra command token `--version` passes through unchanged. -/
theorem C8_locator_order_and_passthrough_witness :
    _find_executable statfW ("/usr/local/bin:/usr/bin") (':') ("node") [""]
      = some ("/usr/bin/node") ∧
    _which statfW false ("/usr/local/bin:/usr/bin") ("") [("node"), ("--version")]
      = some [("/usr/bin/node"), ("--version")] := by
  have h1 := (C8_locator_order_and_passthrough statfW ("/usr/local/bin:/usr/bin")
      ("node") [""]).1 [("/usr/local/bin")] ("/usr/bin") [] [] ("") []
      (by decide) rfl (by decide) (by decide) (by decide)
  have h2 := ((C8_locator_order_and_passthrough statfW ("/usr/local/bin:/usr/bin")
      ("node") [""]).2.2 ("node") [("--version")]).2 ("/usr/bin/node")
      (by rw [h1]; rfl) (by decide)
  exact ⟨by rw [h1]; rfl, h2⟩

/-! ### Program execution: `Context.exec_` (claims C9, C10) -/

/-- File-system events of one `exec_` call. -/
inductive FileOp where
  | create (f : String)
  | remove (f : String)
  deriving DecidableEq

/-- Sequencing of traced, exception-raising steps: the continuation runs
only when the first step succeeded; traces accumulate in order. -/
def pseq {α β : Type} (m : List FileOp × Except PyExc α)
    (k : α → List FileOp × Except PyExc β) : List FileOp × Except PyExc β :=
  match m with
  | (t, Except.error e) => (t, Except.error e)
  | (t, Except.ok a) =>
      match k a with
      | (t2, r) => (t ++ t2, r)

/-- A `try/finally` whose finalizer performs trace events only (here the
unconditional `os.remove(filename)`): the finalizer's events happen
whether the body succeeded or raised, and the body's outcome is
preserved. -/
def ptryFinally {α : Type} (m : List FileOp × Except PyExc α)
    (fin : List FileOp) : List FileOp × Except PyExc α :=
  (m.1 ++ fin, m.2)

/-- The first step inside the `try`: `io.open` / `fp.write` of the
compiled source.  The write oracle reports `none` on success, or the
I/O exception it raised. -/
def writeStep (writeRes : Option PyExc) : List FileOp × Except PyExc Unit :=
  ([], match writeRes with
       | none => Except.ok ()
       | some e => Except.error e)

/-- Embeds `_execfile` (`__init__.py` lines 237-252) as an oracle
outcome: exit status `0` returns the combined stdout/stderr text, any
other exit status raises `RuntimeError(stdoutdata)` carrying that text
verbatim.  The byte decode of line 281 is modelled as the identity on
the already textual oracle output. -/
def execfileStep (runRes : Except (List Char) (List Char)) :
    List FileOp × Except PyExc (List Char) :=
  ([], match runRes with
       | Except.ok out => Except.ok out
       | Except.error out => Except.error (PyExc.runtimeError (JVal.str (String.mk out))))

/-- First pass of the line-ending normalization of `exec_`
(`__init__.py` line 282): `output.replace("\r\n", "\n")`, a left-to-
right non-overlapping replacement. -/
def replaceCRLF : List Char → List Char
  | [] => []
  | [c] => [c]
  | c :: d :: rest =>
      if c = '\r' ∧ d = '\n' then '\n' :: replaceCRLF rest
      else c :: replaceCRLF (d :: rest)

/-- Second pass: `.replace("\r", "\n")`. -/
def replaceCR (l : List Char) : List Char :=
  l.map (fun c => if c = '\r' then '\n' else c)

/-- The line selection `output.split("\n")[-2]` (`__init__.py` line
283): index `[-2]` is the second element from the end, and raises
`IndexError` when the split yields fewer than two parts. -/
def split_select (output : List Char) : Except PyExc (List Char) :=
  match (py_split '\n' (replaceCR (replaceCRLF output))).reverse with
  | _ :: x :: _ => Except.ok x
  | _ => Except.error PyExc.indexError

/-- Embeds `Context.exec_` (`__init__.py` lines 268-283) as one traced
computation: create the temp file (`tempfile.mkstemp` + `os.close`),
then inside `try`: write the compiled source and run the engine;
`finally`: remove the temp file; only afterwards decode, normalize line
endings, select the second-to-last line and extract the result. -/
def exec_run (tmp : String) (writeRes : Option PyExc)
    (runRes : Except (List Char) (List Char))
    (jparse : String → Except PyExc (List JVal)) :
    List FileOp × Except PyExc JVal :=
  pseq ([FileOp.create tmp], Except.ok ()) (fun _ =>
    pseq (ptryFinally
            (pseq (writeStep writeRes) (fun _ => execfileStep runRes))
            [FileOp.remove tmp])
      (fun output =>
        ([], match split_select output with
             | Except.error e => Except.error e
             | Except.ok line => _extract_result jparse (String.mk line))))

/-- C9: every `exec_` call removes the temporary file it created on
every exit path: the file-operation trace is exactly create-then-remove
for every combination of write outcome (including an unexpected
exception), engine outcome (success or the non-zero-exit
`RuntimeError`), and post-processing outcome (including the untyped
crashes of claims C1/C2/C10, which happen after the `finally` ran). -/
theorem C9_exec_removes_tempfile (tmp : String) (writeRes : Option PyExc)
    (runRes : Except (List Char) (List Char))
    (jparse : String → Except PyExc (List JVal)) :
    (exec_run tmp writeRes runRes jparse).1
      = [FileOp.create tmp, FileOp.remove tmp] := by
  cases writeRes <;> cases runRes <;>
    simp [exec_run, pseq, ptryFinally, writeStep, execfileStep]

/-- C9, witness: the trace theorem applied to a successful run, to a
non-zero engine exit, and to a failing write. -/
theorem C9_exec_removes_tempfile_witness :
    (exec_run ("execjs001.js") none (Except.ok ([])) jparseUnused).1
      = [FileOp.create ("execjs001.js"), FileOp.remove ("execjs001.js")] ∧
    (exec_run ("execjs001.js") none (Except.error ([])) jparseUnused).1
      = [FileOp.create ("execjs001.js"), FileOp.remove ("execjs001.js")] ∧
    (exec_run ("execjs001.js") (some PyExc.ioError) (Except.ok ([])) jparseUnused).1
      = [FileOp.create ("execjs001.js"), FileOp.remove ("execjs001.js")] := by
  exact ⟨C9_exec_removes_tempfile ("execjs001.js") none (Except.ok ([])) jparseUnused,
    C9_exec_removes_tempfile ("execjs001.js") none (Except.error ([])) jparseUnused,
    C9_exec_removes_tempfile ("execjs001.js") (some PyExc.ioError) (Except.ok ([])) jparseUnused⟩

theorem py_split_no_sep (sep : Char) :
    ∀ l : List Char, sep ∉ l → py_split sep l = [l] := by
  intro l
  induction l with
  | nil => intro _; rfl
  | cons c t ih =>
      intro h
      have hc : ¬ c = sep := fun e => h (e ▸ List.mem_cons_self c t)
      unfold py_split
      rw [if_neg hc, ih (fun hm => h (List.mem_cons_of_mem c hm))]

theorem mem_nl_or_cr_replaceCRLF (m : List Char) :
    ('\n' ∈ replaceCRLF m ∨ '\r' ∈ replaceCRLF m) ↔ ('\n' ∈ m ∨ '\r' ∈ m) := by
  induction m using replaceCRLF.induct with
  | case1 => simp [replaceCRLF]
  | case2 c => simp [replaceCRLF]
  | case3 c d rest hcd ih =>
      obtain ⟨rfl, rfl⟩ := hcd
      simp [replaceCRLF]
  | case4 c d rest hcd ih =>
      rw [replaceCRLF, if_neg hcd]
      simp only [List.mem_cons] at ih ⊢
      tauto

theorem mem_nl_replaceCR (m : List Char) :
    '\n' ∈ replaceCR m ↔ ('\n' ∈ m ∨ '\r' ∈ m) := by
  unfold replaceCR
  rw [List.mem_map]
  constructor
  · rintro ⟨y, hy, hf⟩
    by_cases hyr : y = '\r'
    · exact Or.inr (hyr ▸ hy)
    · rw [if_neg hyr] at hf
      exact Or.inl (hf ▸ hy)
  · rintro (h | h)
    · exact ⟨'\n', h, by decide⟩
    · exact ⟨'\r', h, by decide⟩

/-- C10: on a successful run, `exec_` feeds result extraction exactly
the second-to-last element of the line-ending-normalized output split on
the newline character; when the normalized output contains no newline at
all (for example when the output is empty) the selection is undefined
and `exec_` raises the untyped `IndexError` instead of one of the
library's typed errors; and the normalized output contains a newline
exactly when the raw output contained a line ending (`\n` or `\r`). -/
theorem C10_second_to_last_line (tmp : String) (out : List Char)
    (jparse : String → Except PyExc (List JVal)) :
    (∀ pre x last_,
       py_split '\n' (replaceCR (replaceCRLF out)) = pre ++ [x, last_] →
       (exec_run tmp none (Except.ok out) jparse).2
         = _extract_result jparse (String.mk x)) ∧
    ('\n' ∉ replaceCR (replaceCRLF out) →
       (exec_run tmp none (Except.ok out) jparse).2 = Except.error PyExc.indexError) ∧
    ('\n' ∈ replaceCR (replaceCRLF out) ↔ ('\n' ∈ out ∨ '\r' ∈ out)) := by
  refine ⟨?_, ?_, ?_⟩
  · intro pre x last_ hsplit
    have hsel : split_select out = Except.ok x := by
      unfold split_select
      rw [hsplit]
      simp
    simp [exec_run, pseq, ptryFinally, writeStep, execfileStep, hsel]
  · intro hnl
    have hsel : split_select out = Except.error PyExc.indexError := by
      unfold split_select
      rw [py_split_no_sep '\n' _ hnl, List.reverse_singleton]
    simp [exec_run, pseq, ptryFinally, writeStep, execfileStep, hsel]
  · rw [mem_nl_replaceCR]
    exact mem_nl_or_cr_replaceCRLF out

/-- C10, witness: the selection theorem applied to the output `x`
followed by one newline (the envelope line `x` is the second-to-last
part, the artifact last part is empty), and to the empty output, which
raises `IndexError`. -/
theorem C10_second_to_last_line_witness :
    (exec_run ("t") none (Except.ok (['x', '\n'])) jparseUnused).2
      = _extract_result jparseUnused (String.mk ['x']) ∧
    (exec_run ("t") none (Except.ok ([])) jparseUnused).2
      = Except.error PyExc.indexError := by
  exact ⟨(C10_second_to_last_line ("t") (['x', '\n']) jparseUnused).1
      [] ['x'] [] (by decide),
    (C10_second_to_last_line ("t") ([]) jparseUnused).2.1 (by decide)⟩

/-! ### Registry construction: `_setup_runtimes` (claim C6) -/

/-- A runtime object created during registry construction, identified by
its family and by the index of the candidate command form that
constructed it (`r = cls(command=command_to_try, **kwargs)` creates
exactly one object per family-and-candidate pair, so two registry
entries hold the identical object precisely when these fields agree);
`availFlag` records the object's cached `is_available()` probe. -/
structure RTObj where
  family : String
  candIdx : Nat
  availFlag : Bool
  deriving DecidableEq

/-- One family's configuration as `_setup_runtimes` consumes it: the
primary registry key (`runtime_name`), the length of its
`commands_to_try` list, and its `alternate_names`. -/
structure FamilyConfig where
  famName : String
  numCandidates : Nat
  alternates : List String
  deriving DecidableEq

/-- `OrderedDict.__setitem__`: replace the value in place when the key
exists, append at the end otherwise. -/
def insertOD : List (String × RTObj) → String → RTObj → List (String × RTObj)
  | [], k, v => [(k, v)]
  | p :: rest, k, v =>
      if p.1 = k then (k, v) :: rest else p :: insertOD rest k v

/-- Key lookup in the ordered dictionary. -/
def lookupOD : List (String × RTObj) → String → Option RTObj
  | [], _ => none
  | p :: rest, k => if p.1 = k then some p.2 else lookupOD rest k

/-- The inner name loop of `_setup_runtimes` (`__init__.py` lines
434-435): `for name in [runtime_name] + alternate_names:
__runtimes[name] = r`. -/
def assignNames (names : List String) (r : RTObj) (od : List (String × RTObj)) :
    List (String × RTObj) :=
  names.foldl (fun acc n => insertOD acc n r) od

/-- The candidate loop of `_setup_runtimes` (`__init__.py` lines
432-437) for one family: construct a runtime object per candidate (its
`is_available()` is the oracle `avail` at the candidate index), assign
every name to it, and break as soon as a candidate is available.
`rem` counts the remaining candidates, `idx` the current index. -/
def setup_family_loop (avail : Nat → Bool) (fam : String) (names : List String) :
    Nat → Nat → List (String × RTObj) → List (String × RTObj)
  | _, 0, od => od
  | idx, rem + 1, od =>
      let r : RTObj := ⟨fam, idx, avail idx⟩
      let od2 := assignNames names r od
      if avail idx then od2
      else setup_family_loop avail fam names (idx + 1) rem od2

/-- Embeds `_setup_runtimes` (`__init__.py` lines 426-440): fold the
per-family candidate loop over the priority-ordered family
configurations, starting from an empty ordered dictionary.  Which
binaries exist is the oracle `avail` (family name and candidate index to
probe outcome). -/
def _setup_runtimes (avail : String → Nat → Bool) (fams : List FamilyConfig) :
    List (String × RTObj) :=
  fams.foldl
    (fun od fc =>
      setup_family_loop (avail fc.famName) fc.famName
        (fc.famName :: fc.alternates) 0 fc.numCandidates od)
    []

/-- The family table of `runtimes_config.py` (lines 14-81):
`runtime_preferred_order`, each family's `commands_to_try` length and
its `alternate_names` (only SpiderMonkey declares one). -/
def pyexecjs_families : List FamilyConfig :=
  [⟨"PyV8", 1, []⟩, ⟨"Node", 2, []⟩, ⟨"JavaScriptCore", 1, []⟩,
   ⟨"SpiderMonkey", 1, ["Spidermonkey"]⟩, ⟨"JScript", 1, []⟩,
   ⟨"PhantomJS", 1, []⟩, ⟨"SlimerJS", 1, []⟩]

theorem lookupOD_insertOD_self (k : String) (v : RTObj) :
    ∀ od, lookupOD (insertOD od k v) k = some v := by
  intro od
  induction od with
  | nil => simp [insertOD, lookupOD]
  | cons p rest ih =>
      by_cases hp : p.1 = k
      · simp [insertOD, hp, lookupOD]
      · simp only [insertOD, if_neg hp]
        rw [lookupOD, if_neg hp]
        exact ih

theorem lookupOD_insertOD_ne (k2 : String) (v : RTObj) (k : String) (hne : ¬ k = k2) :
    ∀ od, lookupOD (insertOD od k2 v) k = lookupOD od k := by
  intro od
  induction od with
  | nil =>
      show (if k2 = k then some v else none) = none
      rw [if_neg (fun h => hne h.symm)]
  | cons p rest ih =>
      by_cases hp : p.1 = k2
      · simp only [insertOD, if_pos hp]
        rw [lookupOD, lookupOD, if_neg (fun h => hne h.symm), if_neg (by rw [hp]; exact fun h => hne h.symm)]
      · simp only [insertOD, if_neg hp]
        rw [lookupOD, lookupOD]
        by_cases hpk : p.1 = k
        · rw [if_pos hpk, if_pos hpk]
        · rw [if_neg hpk, if_neg hpk]
          exact ih

theorem lookupOD_assignNames_not_mem (r : RTObj) (k : String) :
    ∀ names od, ¬ k ∈ names →
      lookupOD (assignNames names r od) k = lookupOD od k := by
  intro names
  induction names with
  | nil => intro od _; rfl
  | cons n rest ih =>
      intro od hk
      show lookupOD (assignNames rest r (insertOD od n r)) k = lookupOD od k
      rw [ih (insertOD od n r) (fun h => hk (List.mem_cons_of_mem n h)),
        lookupOD_insertOD_ne n r k (fun h => hk (h ▸ List.mem_cons_self n rest))]

theorem lookupOD_assignNames_mem (r : RTObj) (k : String) :
    ∀ names od, k ∈ names →
      lookupOD (assignNames names r od) k = some r := by
  intro names
  induction names with
  | nil => intro od hk; cases hk
  | cons n rest ih =>
      intro od hk
      show lookupOD (assignNames rest r (insertOD od n r)) k = some r
      by_cases hkr : k ∈ rest
      · exact ih (insertOD od n r) hkr
      · have hkn : k = n := by
          rcases List.mem_cons.mp hk with h | h
          · exact h
          · exact absurd h hkr
        rw [lookupOD_assignNames_not_mem r k rest (insertOD od n r) hkr, hkn,
          lookupOD_insertOD_self n r od]

theorem setup_family_loop_not_mem (avail : Nat → Bool) (fam : String)
    (names : List String) (k : String) (hk : ¬ k ∈ names) :
    ∀ rem idx od, lookupOD (setup_family_loop avail fam names idx rem od) k
      = lookupOD od k := by
  intro rem
  induction rem with
  | zero => intro idx od; rfl
  | succ rem ih =>
      intro idx od
      show lookupOD (if avail idx then assignNames names _ od
        else setup_family_loop avail fam names (idx + 1) rem
          (assignNames names _ od)) k = lookupOD od k
      by_cases ha : avail idx
      · rw [if_pos ha, lookupOD_assignNames_not_mem _ k names od hk]
      · rw [if_neg ha, ih (idx + 1) (assignNames names _ od),
          lookupOD_assignNames_not_mem _ k names od hk]

theorem setup_family_loop_first_avail (avail : Nat → Bool) (fam : String)
    (names : List String) (k : String) (hk : k ∈ names) :
    ∀ rem idx od j, idx ≤ j → j < idx + rem → avail j = true →
      (∀ i, idx ≤ i → i < j → avail i = false) →
      lookupOD (setup_family_loop avail fam names idx rem od) k
        = some ⟨fam, j, true⟩ := by
  intro rem
  induction rem with
  | zero => intro idx od j h1 h2 _ _; omega
  | succ rem ih =>
      intro idx od j h1 h2 hj hfalse
      show lookupOD (if avail idx then assignNames names ⟨fam, idx, avail idx⟩ od
        else setup_family_loop avail fam names (idx + 1) rem
          (assignNames names ⟨fam, idx, avail idx⟩ od)) k = some ⟨fam, j, true⟩
      by_cases ha : avail idx
      · have hji : j = idx := by
          by_contra hne
          have : idx < j := lt_of_le_of_ne h1 (fun e => hne e.symm)
          rw [hfalse idx (Nat.le_refl idx) this] at ha
          cases ha
        rw [if_pos ha, lookupOD_assignNames_mem _ k names od hk, hji]
        have hai : avail idx = true := ha
        rw [hai]
      · have hji : idx < j := by
          rcases Nat.lt_or_ge idx j with h | h
          · exact h
          · have : j = idx := Nat.le_antisymm (Nat.le_of_lt_succ (Nat.lt_succ_of_le h)) h1
            rw [this] at hj
            exact absurd hj (by simpa using ha)
        rw [if_neg ha]
        exact ih (idx + 1) _ j hji (by omega) hj
          (fun i hi1 hi2 => hfalse i (Nat.le_of_succ_le hi1) hi2)

theorem setup_family_loop_none_avail (avail : Nat → Bool) (fam : String)
    (names : List String) (k : String) (hk : k ∈ names) :
    ∀ rem idx od, 0 < rem → (∀ i, idx ≤ i → i < idx + rem → avail i = false) →
      lookupOD (setup_family_loop avail fam names idx rem od) k
        = some ⟨fam, idx + rem - 1, false⟩ := by
  intro rem
  induction rem with
  | zero => intro idx od h _; omega
  | succ rem ih =>
      intro idx od _ hfalse
      have ha : avail idx = false := hfalse idx (Nat.le_refl idx) (by omega)
      show lookupOD (if avail idx then assignNames names ⟨fam, idx, avail idx⟩ od
        else setup_family_loop avail fam names (idx + 1) rem
          (assignNames names ⟨fam, idx, avail idx⟩ od)) k
        = some ⟨fam, idx + (rem + 1) - 1, false⟩
      rw [if_neg (by simp [ha])]
      cases rem with
      | zero =>
          show lookupOD (assignNames names ⟨fam, idx, avail idx⟩ od) k = _
          rw [lookupOD_assignNames_mem _ k names od hk, ha]
          norm_num
      | succ rem2 =>
          have heq : idx + 1 + (rem2 + 1) - 1 = idx + (rem2 + 1 + 1) - 1 := by omega
          rw [← heq]
          exact ih (idx + 1) _ (by omega)
            (fun i hi1 hi2 => hfalse i (Nat.le_of_succ_le hi1) (by omega))

theorem setup_family_loop_same (avail : Nat → Bool) (fam : String)
    (names : List String) (k1 k2 : String) (h1 : k1 ∈ names) (h2 : k2 ∈ names) :
    ∀ rem idx od, 0 < rem →
      lookupOD (setup_family_loop avail fam names idx rem od) k1
        = lookupOD (setup_family_loop avail fam names idx rem od) k2 := by
  intro rem
  induction rem with
  | zero => intro idx od h; omega
  | succ rem ih =>
      intro idx od _
      show lookupOD (if avail idx then assignNames names ⟨fam, idx, avail idx⟩ od
          else setup_family_loop avail fam names (idx + 1) rem
            (assignNames names ⟨fam, idx, avail idx⟩ od)) k1
        = lookupOD (if avail idx then assignNames names ⟨fam, idx, avail idx⟩ od
          else setup_family_loop avail fam names (idx + 1) rem
            (assignNames names ⟨fam, idx, avail idx⟩ od)) k2
      by_cases ha : avail idx
      · rw [if_pos ha, lookupOD_assignNames_mem _ k1 names od h1,
          lookupOD_assignNames_mem _ k2 names od h2]
      · rw [if_neg ha]
        cases rem with
        | zero =>
            show lookupOD (assignNames names ⟨fam, idx, avail idx⟩ od) k1
              = lookupOD (assignNames names ⟨fam, idx, avail idx⟩ od) k2
            rw [lookupOD_assignNames_mem _ k1 names od h1,
              lookupOD_assignNames_mem _ k2 names od h2]
        | succ rem2 => exact ih (idx + 1) _ (by omega)

theorem lookup_foldl_not_mem (avail : String → Nat → Bool) (k : String) :
    ∀ (fams : List FamilyConfig) (od : List (String × RTObj)),
      (∀ g ∈ fams, ¬ k ∈ g.famName :: g.alternates) →
      lookupOD (fams.foldl (fun od fc =>
        setup_family_loop (avail fc.famName) fc.famName
          (fc.famName :: fc.alternates) 0 fc.numCandidates od) od) k
        = lookupOD od k := by
  intro fams
  induction fams with
  | nil => intro od _; rfl
  | cons g rest ih =>
      intro od h
      rw [List.foldl_cons,
        ih _ (fun x hx => h x (List.mem_cons_of_mem g hx)),
        setup_family_loop_not_mem (avail g.famName) g.famName _ k
          (h g (List.mem_cons_self g rest))]

theorem lookup_setup_middle (avail : String → Nat → Bool)
    (f1 : List FamilyConfig) (fc : FamilyConfig) (f2 : List FamilyConfig)
    (k : String) (hk2 : ∀ g ∈ f2, ¬ k ∈ g.famName :: g.alternates) :
    lookupOD (_setup_runtimes avail (f1 ++ fc :: f2)) k
      = lookupOD (setup_family_loop (avail fc.famName) fc.famName
          (fc.famName :: fc.alternates) 0 fc.numCandidates
          (_setup_runtimes avail f1)) k := by
  unfold _setup_runtimes
  rw [List.foldl_append, List.foldl_cons]
  exact lookup_foldl_not_mem avail k f2 _ hk2

/-- The three registry-construction properties for one family sitting at
an arbitrary position of the priority list, with every later family
using disjoint names. -/
theorem setup_family_properties (avail : String → Nat → Bool)
    (f1 : List FamilyConfig) (fc : FamilyConfig) (f2 : List FamilyConfig)
    (hnc : 0 < fc.numCandidates)
    (hk2 : ∀ k ∈ fc.famName :: fc.alternates,
      ∀ g ∈ f2, ¬ k ∈ g.famName :: g.alternates) :
    (∀ j, j < fc.numCandidates → avail fc.famName j = true →
       (∀ i, i < j → avail fc.famName i = false) →
       lookupOD (_setup_runtimes avail (f1 ++ fc :: f2)) fc.famName
         = some ⟨fc.famName, j, true⟩) ∧
    ((∀ i, i < fc.numCandidates → avail fc.famName i = false) →
       lookupOD (_setup_runtimes avail (f1 ++ fc :: f2)) fc.famName
         = some ⟨fc.famName, fc.numCandidates - 1, false⟩) ∧
    (∀ alt ∈ fc.alternates,
       lookupOD (_setup_runtimes avail (f1 ++ fc :: f2)) alt
         = lookupOD (_setup_runtimes avail (f1 ++ fc :: f2)) fc.famName) := by
  have hmid : ∀ k, k ∈ fc.famName :: fc.alternates →
      lookupOD (_setup_runtimes avail (f1 ++ fc :: f2)) k
        = lookupOD (setup_family_loop (avail fc.famName) fc.famName
            (fc.famName :: fc.alternates) 0 fc.numCandidates
            (_setup_runtimes avail f1)) k :=
    fun k hk => lookup_setup_middle avail f1 fc f2 k (hk2 k hk)
  refine ⟨?_, ?_, ?_⟩
  · intro j hj hja hfalse
    rw [hmid fc.famName (List.mem_cons_self _ _)]
    exact setup_family_loop_first_avail (avail fc.famName) fc.famName _
      fc.famName (List.mem_cons_self _ _) fc.numCandidates 0 _ j
      (Nat.zero_le j) (by omega) hja (fun i _ hi2 => hfalse i hi2)
  · intro hfalse
    rw [hmid fc.famName (List.mem_cons_self _ _)]
    have h := setup_family_loop_none_avail (avail fc.famName) fc.famName
      (fc.famName :: fc.alternates) fc.famName (List.mem_cons_self _ _)
      fc.numCandidates 0 (_setup_runtimes avail f1) hnc
      (fun i _ hi2 => hfalse i (by omega))
    simpa using h
  · intro alt halt
    rw [hmid alt (List.mem_cons_of_mem _ halt), hmid fc.famName (List.mem_cons_self _ _)]
    exact setup_family_loop_same (avail fc.famName) fc.famName _
      alt fc.famName (List.mem_cons_of_mem _ halt) (List.mem_cons_self _ _)
      fc.numCandidates 0 _ hnc

/-- C6: registry construction over the configured family table, for
every availability oracle.  (i) When candidate `j` of a family is
available and all earlier candidates are not, the family's key maps to
the object constructed from candidate `j` with a true cached probe —
the first available candidate is kept and probing stopped there.
(ii) A family none of whose candidates is available still maps to a
runtime object: the one constructed from the last-tried candidate, whose
`is_available()` reports false.  (iii) Every declared alias maps to the
identical runtime object as the family's primary name. -/
theorem C6_setup_runtimes_registry (avail : String → Nat → Bool)
    (fc : FamilyConfig) (hfc : fc ∈ pyexecjs_families) :
    (∀ j, j < fc.numCandidates → avail fc.famName j = true →
       (∀ i, i < j → avail fc.famName i = false) →
       lookupOD (_setup_runtimes avail pyexecjs_families) fc.famName
         = some ⟨fc.famName, j, true⟩) ∧
    ((∀ i, i < fc.numCandidates → avail fc.famName i = false) →
       lookupOD (_setup_runtimes avail pyexecjs_families) fc.famName
         = some ⟨fc.famName, fc.numCandidates - 1, false⟩) ∧
    (∀ alt ∈ fc.alternates,
       lookupOD (_setup_runtimes avail pyexecjs_families) alt
         = lookupOD (_setup_runtimes avail pyexecjs_families) fc.famName) := by
  fin_cases hfc
  · exact setup_family_properties avail [] ⟨"PyV8", 1, []⟩
      [⟨"Node", 2, []⟩, ⟨"JavaScriptCore", 1, []⟩, ⟨"SpiderMonkey", 1, ["Spidermonkey"]⟩,
       ⟨"JScript", 1, []⟩, ⟨"PhantomJS", 1, []⟩, ⟨"SlimerJS", 1, []⟩]
      (by decide) (by decide)
  · exact setup_family_properties avail [⟨"PyV8", 1, []⟩] ⟨"Node", 2, []⟩
      [⟨"JavaScriptCore", 1, []⟩, ⟨"SpiderMonkey", 1, ["Spidermonkey"]⟩,
       ⟨"JScript", 1, []⟩, ⟨"PhantomJS", 1, []⟩, ⟨"SlimerJS", 1, []⟩]
      (by decide) (by decide)
  · exact setup_family_properties avail [⟨"PyV8", 1, []⟩, ⟨"Node", 2, []⟩]
      ⟨"JavaScriptCore", 1, []⟩
      [⟨"SpiderMonkey", 1, ["Spidermonkey"]⟩, ⟨"JScript", 1, []⟩,
       ⟨"PhantomJS", 1, []⟩, ⟨"SlimerJS", 1, []⟩]
      (by decide) (by decide)
  · exact setup_family_properties avail
      [⟨"PyV8", 1, []⟩, ⟨"Node", 2, []⟩, ⟨"JavaScriptCore", 1, []⟩]
      ⟨"SpiderMonkey", 1, ["Spidermonkey"]⟩
      [⟨"JScript", 1, []⟩, ⟨"PhantomJS", 1, []⟩, ⟨"SlimerJS", 1, []⟩]
      (by decide) (by decide)
  · exact setup_family_properties avail
      [⟨"PyV8", 1, []⟩, ⟨"Node", 2, []⟩, ⟨"JavaScriptCore", 1, []⟩,
       ⟨"SpiderMonkey", 1, ["Spidermonkey"]⟩]
      ⟨"JScript", 1, []⟩
      [⟨"PhantomJS", 1, []⟩, ⟨"SlimerJS", 1, []⟩]
      (by decide) (by decide)
  · exact setup_family_properties avail
      [⟨"PyV8", 1, []⟩, ⟨"Node", 2, []⟩, ⟨"JavaScriptCore", 1, []⟩,
       ⟨"SpiderMonkey", 1, ["Spidermonkey"]⟩, ⟨"JScript", 1, []⟩]
      ⟨"PhantomJS", 1, []⟩
      [⟨"SlimerJS", 1, []⟩]
      (by decide) (by decide)
  · exact setup_family_properties avail
      [⟨"PyV8", 1, []⟩, ⟨"Node", 2, []⟩, ⟨"JavaScriptCore", 1, []⟩,
       ⟨"SpiderMonkey", 1, ["Spidermonkey"]⟩, ⟨"JScript", 1, []⟩, ⟨"PhantomJS", 1, []⟩]
      ⟨"SlimerJS", 1, []⟩ []
      (by decide) (by decide)

/-- Concrete availability oracle: only the second Node candidate
(the `node` binary, after the unavailable `nodejs`) exists. -/
def availNode1 : String → Nat → Bool := fun f i => f == "Node" && i == 1

/-- C6, witness: under `availNode1` the `Node` key keeps the object of
its second candidate with a true probe; `SpiderMonkey`, with no
available candidate, keeps its last-tried candidate with a false probe;
and the alias `Spidermonkey` maps to the identical object as
`SpiderMonkey`. -/
theorem C6_setup_runtimes_registry_witness :
    lookupOD (_setup_runtimes availNode1 pyexecjs_families) ("Node")
      = some ⟨"Node", 1, true⟩ ∧
    lookupOD (_setup_runtimes availNode1 pyexecjs_families) ("SpiderMonkey")
      = some ⟨"SpiderMonkey", 0, false⟩ ∧
    lookupOD (_setup_runtimes availNode1 pyexecjs_families) ("Spidermonkey")
      = lookupOD (_setup_runtimes availNode1 pyexecjs_families) ("SpiderMonkey") := by
  refine ⟨?_, ?_, ?_⟩
  · exact (C6_setup_runtimes_registry availNode1 ⟨"Node", 2, []⟩ (by decide)).1
      1 (by decide) (by decide) (by decide)
  · exact (C6_setup_runtimes_registry availNode1 ⟨"SpiderMonkey", 1, ["Spidermonkey"]⟩
      (by decide)).2.1 (by decide)
  · exact (C6_setup_runtimes_registry availNode1 ⟨"SpiderMonkey", 1, ["Spidermonkey"]⟩
      (by decide)).2.2 ("Spidermonkey") (by decide)

end ExecJS
